import Mathlib

/-!
Verification development for the SIMT kernel-launch runtime `vx_spawn.c`
(function `vx_spawn_threads` and its helper stubs `process_threads`,
`process_remaining_threads`, `process_thread_groups`,
`process_thread_groups_stub`).

The C code is shallowly embedded: every `uint32_t` operation that can
overflow is wrapped with an explicit `% 2^32`.  The entry point is modelled
per core by `Launch.spawnCore`, which returns the return value of the call, the
ordered list of user-callback invocations made on that core (each recording
the `blockIdx` and `threadIdx` thread-locals at the moment of the call),
the list of warp-spawn requests issued, and the final values of the
published globals `gridDim`, `blockDim` and `__warps_per_group`.
-/

namespace VxSpawn

/-- The constant `2^32`, the modulus of `uint32_t` arithmetic. -/
def U : Nat := 4294967296

/-- Wrap a natural number to `uint32_t` range, as C unsigned arithmetic does. -/
def w32 (n : Nat) : Nat := n % U

/-- Wrapped `uint32_t` subtraction `a - b` with modular (wraparound) semantics. -/
def wsub32 (a b : Nat) : Nat := (w32 a + U - w32 b) % U

/-- The C expression `(a + b - 1) / b` evaluated in `uint32_t`
(used for the needed-cores ceiling divisions at lines 204 and 279). -/
def ceilU32 (a b : Nat) : Nat := wsub32 (w32 (a + b)) 1 / b

/-- Mirror of `dim3_t`: a three-component dimension vector. -/
structure Dim3 where
  x : Nat
  y : Nat
  z : Nat
deriving DecidableEq, Repr

/-- Device identity as queried from hardware by `vx_num_cores`,
`vx_num_warps`, `vx_num_threads`. -/
structure Device where
  numCores : Nat
  warpsPerCore : Nat
  threadsPerWarp : Nat
deriving DecidableEq, Repr

/-- Well-formedness of the device constants: the hardware queries return
positive `uint32_t` values, a warp has at most 32 lanes (lane masks are a
single `uint32_t`), and the lane capacity of a core fits in `uint32_t`. -/
def Device.WF (d : Device) : Prop :=
  1 ≤ d.numCores ∧ d.numCores < U ∧
  1 ≤ d.warpsPerCore ∧ 1 ≤ d.threadsPerWarp ∧
  d.threadsPerWarp ≤ 32 ∧ d.warpsPerCore * d.threadsPerWarp < U

instance (d : Device) : Decidable d.WF := by
  unfold Device.WF; infer_instance

/-- One user-callback invocation: the values of the thread-local
`blockIdx` and `threadIdx` visible to the callback. -/
structure Inv where
  blockIdx : Dim3
  threadIdx : Dim3
deriving DecidableEq, Repr

/-- Observable per-core outcome of one `vx_spawn_threads` call:
return value, callback invocations, `vx_wspawn` first arguments in call
order, and final values of the globals written by the call. -/
structure CoreResult where
  ret : Int
  invs : List Inv
  wspawns : List Nat
  gridDimG : Dim3
  blockDimG : Dim3
  warpsPerGroupG : Nat
deriving DecidableEq

/-- The components of a `CoreResult` other than the published `blockDim`
global (used to compare launches that differ only in `block_dim`). -/
def CoreResult.obs (r : CoreResult) : Int × List Inv × List Nat × Dim3 × Nat :=
  (r.ret, r.invs, r.wspawns, r.gridDimG, r.warpsPerGroupG)

/-- A launch as seen after the geometry-normalization loop (lines 163-173):
the normalized `gridDim`/`blockDim`, the device constants, and the pre-call
contents of the globals and of the warp-0 thread-locals (the latter are
observable because `process_remaining_threads` reads thread-locals it never
wrote). -/
structure Launch where
  gDim : Dim3
  bDim : Dim3
  dev : Device
  gridDim0 : Dim3
  blockDim0 : Dim3
  warpsPerGroup0 : Nat
  initBlockIdx : Nat → Dim3
  initThreadIdx : Nat → Dim3

namespace Launch

variable (L : Launch)

/-- Value `num_groups`, the running `uint32_t` product of the grid axes (line 169). -/
def numGroups : Nat := w32 (w32 (L.gDim.x * L.gDim.y) * L.gDim.z)

/-- Value `group_size`, the running `uint32_t` product of the block axes (line 170). -/
def groupSize : Nat := w32 (w32 (L.bDim.x * L.bDim.y) * L.bDim.z)

/-- Value `threads_per_core = warps_per_core * threads_per_warp` (line 183). -/
def threadsPerCore : Nat := w32 (L.dev.warpsPerCore * L.dev.threadsPerWarp)

/-- Value `remaining_threads = group_size % threads_per_warp` (line 194). -/
def remainingThreads : Nat := L.groupSize % L.dev.threadsPerWarp

/-- Value `warps_per_group`: `group_size / threads_per_warp`, incremented when the
division leaves a remainder (lines 193-199). -/
def warpsPerGroup : Nat :=
  if L.remainingThreads ≠ 0 then w32 (L.groupSize / L.dev.threadsPerWarp + 1)
  else L.groupSize / L.dev.threadsPerWarp

/-- Value `remaining_mask`: `(1 << remaining_threads) - 1` when the last warp of a
block is partial, otherwise `(uint32_t)-1` (lines 195-198). -/
def remainingMask : Nat :=
  if L.remainingThreads ≠ 0 then wsub32 (w32 (1 <<< L.remainingThreads)) 1
  else U - 1

/-- Value `needed_warps = num_groups * warps_per_group` (line 202). -/
def neededWarps : Nat := w32 (L.numGroups * L.warpsPerGroup)

/-- Value `active_cores` in the `group_size > 1` path (lines 204-205). -/
def activeCoresG : Nat := min (ceilU32 L.neededWarps L.dev.warpsPerCore) L.dev.numCores

/-- Value `active_cores` in the `group_size <= 1` task path (lines 279-280). -/
def activeCoresT : Nat := min (ceilU32 L.numGroups L.threadsPerCore) L.dev.numCores

/-- The `active_cores` value the executed path computes. -/
def activeCores : Nat := if 1 < L.groupSize then L.activeCoresG else L.activeCoresT

/-- The per-core share of `num_groups` blocks (or tasks) among `A` active
cores, as computed at lines 214-218 (and identically at lines 287-291):
`num_groups / A`, plus one for the first `num_groups % A` cores. -/
def perCore (A c : Nat) : Nat :=
  if c < L.numGroups % A then w32 (L.numGroups / A + 1) else L.numGroups / A

/-- The slab offset `c * (num_groups / A) + MIN(c, num_groups % A)` of
line 238 (and identically `all_tasks_offset` at line 310). -/
def coreOffset (A c : Nat) : Nat :=
  w32 (w32 (c * (L.numGroups / A)) + min c (L.numGroups % A))

/-- Value `total_groups_per_core` of the group path (lines 214-218). -/
def groupsPerCore (c : Nat) : Nat := L.perCore L.activeCoresG c

/-- Value `group_offset` of the group path (line 238). -/
def groupOffset (c : Nat) : Nat := L.coreOffset L.activeCoresG c

/-- Value `warps_per_core / warps_per_group`: the number of blocks whose warps can
be resident on a core at once (line 222); also the scratch-descriptor field
named `groups_per_core` (line 253), which is the stride of the group loop. -/
def concurrentGroups : Nat := L.dev.warpsPerCore / L.warpsPerGroup

/-- Value `total_warps_for_this_core = total_groups_per_core * warps_per_group`
(line 223). -/
def totalWarpsG (c : Nat) : Nat := w32 (L.groupsPerCore c * L.warpsPerGroup)

/-- The warp count passed to `vx_wspawn` in the group path (lines 224-232). -/
def activeWarpsG (c : Nat) : Nat :=
  if L.dev.warpsPerCore < L.totalWarpsG c
  then w32 (L.concurrentGroups * L.warpsPerGroup)
  else L.totalWarpsG c

/-- Value `warp_batches` of the group path (lines 225-231). -/
def warpBatchesG (c : Nat) : Nat :=
  if L.dev.warpsPerCore < L.totalWarpsG c
  then L.totalWarpsG c / w32 (L.concurrentGroups * L.warpsPerGroup)
  else 1

/-- Value `remaining_warps` of the group path (lines 226-231). -/
def remainingWarpsG (c : Nat) : Nat :=
  if L.dev.warpsPerCore < L.totalWarpsG c
  then L.totalWarpsG c % w32 (L.concurrentGroups * L.warpsPerGroup)
  else 0

/-- Value `iterations = warp_batches + (warp_id < remaining_warps)` computed by
`process_thread_groups` (line 113). -/
def iterationsG (c wid : Nat) : Nat :=
  L.warpBatchesG c + (if wid < L.remainingWarpsG c then 1 else 0)

/-- The lane mask installed by `process_thread_groups_stub` (lines 144-148):
`remaining_mask` for the last warp of each block, all-ones otherwise. -/
def tmcMask (wid : Nat) : Nat :=
  if wid % L.warpsPerGroup = wsub32 L.warpsPerGroup 1 then L.remainingMask
  else U - 1

/-- Whether lane `t` of warp `wid` is activated by the `vx_tmc` call of the group stub
call: the lane exists on the hardware and its bit is set in the mask. -/
def laneActive (wid t : Nat) : Bool :=
  decide (t < L.dev.threadsPerWarp) && (L.tmcMask wid).testBit t

end Launch

/-- Row-major (x-fastest) decomposition of a linear index against a
`dim3_t`, as at lines 76-78 and 124-126; the `z` divisor is the `uint32_t`
product of the first two axes. -/
def decomp (n : Nat) (d : Dim3) : Dim3 :=
  ⟨n % d.x, (n / d.x) % d.y, n / w32 (d.x * d.y)⟩

namespace Launch

variable (L : Launch)

/-- All callback invocations performed on core `c` by the group path
(`process_thread_groups`, lines 103-137): every active warp `wid` in
`[0, active_warps)`, every lane its mask activates, iterating `iterations`
times with block stride `concurrent groups`; `local_task_id =
group_warp_id * threads_per_warp + thread_id` with `group_warp_id =
warp_id - local_group_id * warps_per_group` (lines 115-117). -/
def groupInvs (c : Nat) : List Inv :=
  (List.range (L.activeWarpsG c)).flatMap fun wid =>
    ((List.range L.dev.threadsPerWarp).filter fun t => L.laneActive wid t).flatMap fun t =>
      (List.range (L.iterationsG c wid)).map fun i =>
        { blockIdx :=
            decomp (w32 (w32 (L.groupOffset c + wid / L.warpsPerGroup)
              + i * L.concurrentGroups)) L.gDim
          threadIdx :=
            decomp (w32 (w32 ((wid - (wid / L.warpsPerGroup) * L.warpsPerGroup)
              * L.dev.threadsPerWarp) + t)) L.bDim }

/-- Value `tasks_per_core` of the task path (lines 287-291). -/
def tasksPerCore (c : Nat) : Nat := L.perCore L.activeCoresT c

/-- Value `all_tasks_offset` of the task path (line 310). -/
def allTasksOffset (c : Nat) : Nat := L.coreOffset L.activeCoresT c

/-- Value `total_warps_for_this_core_tasks = tasks_per_core / threads_per_warp`
(line 295). -/
def fullWarpsT (c : Nat) : Nat := L.tasksPerCore c / L.dev.threadsPerWarp

/-- Value `remaining_individual_tasks = tasks_per_core % threads_per_warp`
(line 296). -/
def tailT (c : Nat) : Nat := L.tasksPerCore c % L.dev.threadsPerWarp

/-- The warp count passed to `vx_wspawn` in the task path (lines 298-306). -/
def activeWarpsT (c : Nat) : Nat :=
  if L.dev.warpsPerCore < L.fullWarpsT c then L.dev.warpsPerCore
  else L.fullWarpsT c

/-- Value `warp_batches` of the task path (lines 299-305). -/
def warpBatchesT (c : Nat) : Nat :=
  if L.dev.warpsPerCore < L.fullWarpsT c then L.fullWarpsT c / L.dev.warpsPerCore
  else 1

/-- Value `remaining_warps` of the task path (lines 300-305). -/
def remainingWarpsT (c : Nat) : Nat :=
  if L.dev.warpsPerCore < L.fullWarpsT c then L.fullWarpsT c % L.dev.warpsPerCore
  else 0

/-- Value `iterations` computed by `process_threads` (line 62). -/
def iterationsT (c wid : Nat) : Nat :=
  L.warpBatchesT c + (if wid < L.remainingWarpsT c then 1 else 0)

/-- Value `start_warp = warp_id * warp_batches + MIN(warp_id, remaining_warps)`
(line 61). -/
def startWarpT (c wid : Nat) : Nat :=
  w32 (w32 (wid * L.warpBatchesT c) + min wid (L.remainingWarpsT c))

/-- Value `start_task_id = all_tasks_offset + start_warp * threads_per_warp +
thread_id` (line 64). -/
def startTaskT (c wid t : Nat) : Nat :=
  w32 (w32 (L.allTasksOffset c + w32 (L.startWarpT c wid * L.dev.threadsPerWarp)) + t)

/-- Value `remain_tasks_offset = all_tasks_offset + (tasks_per_core -
remaining_individual_tasks)` (line 312). -/
def remainTasksOffset (c : Nat) : Nat :=
  w32 (L.allTasksOffset c + (L.tasksPerCore c - L.tailT c))

/-- Callback invocations of the full-warp section of the task path
(`process_threads`, lines 54-81): all lanes of each active warp, each lane
iterating with stride `threads_per_warp`; `threadIdx` is zeroed first
(lines 68-70). -/
def taskFullInvs (c : Nat) : List Inv :=
  (List.range (L.activeWarpsT c)).flatMap fun wid =>
    (List.range L.dev.threadsPerWarp).flatMap fun t =>
      (List.range (L.iterationsT c wid)).map fun i =>
        { blockIdx := decomp (w32 (L.startTaskT c wid t + i * L.dev.threadsPerWarp)) L.gDim
          threadIdx := (⟨0, 0, 0⟩ : Dim3) }

/-- The tail lane mask `(1 << remaining_individual_tasks) - 1` (line 339). -/
def tailMask (c : Nat) : Nat := wsub32 (w32 (1 <<< L.tailT c)) 1

/-- The thread-local `blockIdx` that lane `t` of warp 0 holds at the time the
remainder stub runs.  `process_remaining_threads` (lines 83-90) computes
`task_id = remain_tasks_offset + thread_id` but never assigns `blockIdx`,
so the callback sees whatever the preceding `process_threads` loop on
warp 0 left in the thread-local of the lane (its last assigned task), or the pre-call
contents when no full warp ran. -/
def staleBlockIdx (c t : Nat) : Dim3 :=
  if 1 ≤ L.activeWarpsT c then
    if 1 ≤ L.iterationsT c 0 then
      decomp (w32 (L.startTaskT c 0 t + (L.iterationsT c 0 - 1) * L.dev.threadsPerWarp)) L.gDim
    else L.initBlockIdx t
  else L.initBlockIdx t

/-- The thread-local `threadIdx` that lane `t` of warp 0 holds at the time the
remainder stub runs: zeroed by `process_threads` (lines 68-70) when the
full-warp section ran, otherwise the pre-call contents. -/
def staleThreadIdx (c t : Nat) : Dim3 :=
  if 1 ≤ L.activeWarpsT c then (⟨0, 0, 0⟩ : Dim3) else L.initThreadIdx t

/-- Callback invocations of the remainder stub (lines 338-345): when the
tail is non-empty, each lane the tail mask activates invokes the callback
once, with the stale thread-locals described above. -/
def taskTailInvs (c : Nat) : List Inv :=
  if L.tailT c ≠ 0 then
    ((List.range L.dev.threadsPerWarp).filter fun t => (L.tailMask c).testBit t).map fun t =>
      { blockIdx := L.staleBlockIdx c t, threadIdx := L.staleThreadIdx c t }
  else []

/-- Per-core model of `vx_spawn_threads` (lines 157-356) after geometry
normalization: the capacity check (lines 184-188), the `group_size > 1`
block path (lines 191-269) and the `group_size <= 1` task path
(lines 271-346), including the early return of non-active cores
(lines 210-211 and 283-284) and the final quiescence `vx_wspawn(1, 0)`
(line 353).  `gridDim`/`blockDim` are published by the normalization loop
before the capacity check, so they hold the normalized geometry in every
outcome; `__warps_per_group` is written at line 260 (group path, active
cores only, after the participation check) and at line 276 (task path,
before the participation check). -/
def spawnCore (coreId : Nat) : CoreResult :=
  if L.threadsPerCore < L.groupSize then
    { ret := -1, invs := [], wspawns := [],
      gridDimG := L.gDim, blockDimG := L.bDim, warpsPerGroupG := L.warpsPerGroup0 }
  else if 1 < L.groupSize then
    if L.activeCoresG ≤ coreId then
      { ret := 0, invs := [], wspawns := [],
        gridDimG := L.gDim, blockDimG := L.bDim, warpsPerGroupG := L.warpsPerGroup0 }
    else
      { ret := 0, invs := L.groupInvs coreId,
        wspawns := [L.activeWarpsG coreId, 1],
        gridDimG := L.gDim, blockDimG := L.bDim, warpsPerGroupG := L.warpsPerGroup }
  else
    if L.activeCoresT ≤ coreId then
      { ret := 0, invs := [], wspawns := [],
        gridDimG := L.gDim, blockDimG := L.bDim, warpsPerGroupG := 0 }
    else
      { ret := 0, invs := L.taskFullInvs coreId ++ L.taskTailInvs coreId,
        wspawns := (if 1 ≤ L.activeWarpsT coreId then [L.activeWarpsT coreId] else []) ++ [1],
        gridDimG := L.gDim, blockDimG := L.bDim, warpsPerGroupG := 0 }

/-- All callback invocations of the launch, over every core of the device
(the entry point runs on every physical core with identical arguments). -/
def allInvs : List Inv :=
  (List.range L.dev.numCores).flatMap fun c => (L.spawnCore c).invs

/-- Total number of callback invocations across the device. -/
def totalInvs : Nat := L.allInvs.length

/-- How many callback invocations across the device observe `blockIdx = b`. -/
def countBlockIdx (b : Dim3) : Nat :=
  L.allInvs.countP fun v => decide (v.blockIdx = b)

end Launch

/-- The raw arguments of `vx_spawn_threads` before normalization:
`dimension` and the two optional axis arrays (null pointers allowed). -/
structure Cfg where
  dimension : Nat
  gridPtr : Option (Nat → Nat)
  blockPtr : Option (Nat → Nat)
  dev : Device
  gridDim0 : Dim3
  blockDim0 : Dim3
  warpsPerGroup0 : Nat
  initBlockIdx : Nat → Dim3
  initThreadIdx : Nat → Dim3

/-- One axis read of the normalization loop (lines 167-168):
`(ptr && (i < dimension)) ? ptr[i] : 1`, the array element being a
`uint32_t`. -/
def axisVal (p : Option (Nat → Nat)) (dim i : Nat) : Nat :=
  match p with
  | none => 1
  | some a => if i < dim then w32 (a i) else 1

/-- Geometry normalization (lines 163-173): only axes `0`, `1`, `2` are
read, and an axis defaults to `1` when its array is null or its index is
not below `dimension`. -/
def Cfg.launch (cfg : Cfg) : Launch :=
  { gDim := ⟨axisVal cfg.gridPtr cfg.dimension 0, axisVal cfg.gridPtr cfg.dimension 1,
             axisVal cfg.gridPtr cfg.dimension 2⟩
    bDim := ⟨axisVal cfg.blockPtr cfg.dimension 0, axisVal cfg.blockPtr cfg.dimension 1,
             axisVal cfg.blockPtr cfg.dimension 2⟩
    dev := cfg.dev
    gridDim0 := cfg.gridDim0
    blockDim0 := cfg.blockDim0
    warpsPerGroup0 := cfg.warpsPerGroup0
    initBlockIdx := cfg.initBlockIdx
    initThreadIdx := cfg.initThreadIdx }

/-- Model of `vx_spawn_threads` on raw arguments, per core. -/
def Cfg.spawnCore (cfg : Cfg) (coreId : Nat) : CoreResult :=
  cfg.launch.spawnCore coreId

end VxSpawn

namespace VxSpawn

/-! ### Concrete launches used as inputs of counterexamples and witnesses -/

/-- A launch whose pre-call globals and thread-locals are all zero. -/
def mkLaunch (g b : Dim3) (d : Device) : Launch :=
  { gDim := g, bDim := b, dev := d, gridDim0 := ⟨0, 0, 0⟩, blockDim0 := ⟨0, 0, 0⟩,
    warpsPerGroup0 := 0, initBlockIdx := fun _ => ⟨0, 0, 0⟩,
    initThreadIdx := fun _ => ⟨0, 0, 0⟩ }

/-- Five single-thread tasks on a one-core, one-warp, four-lane device:
the tail task falls to the remainder stub. -/
def launchC1 : Launch := mkLaunch ⟨5, 1, 1⟩ ⟨1, 1, 1⟩ ⟨1, 1, 4⟩

/-- An oversized block: `group_size = 17` on a 16-lane-capacity core. -/
def launchC2err : Launch := mkLaunch ⟨1, 1, 1⟩ ⟨17, 1, 1⟩ ⟨2, 4, 4⟩

/-- A small accepted launch. -/
def launchC2ok : Launch := mkLaunch ⟨8, 1, 1⟩ ⟨1, 1, 1⟩ ⟨2, 4, 4⟩

/-- A zero grid (`grid_dim.x = 0`) with a small block. -/
def launchC7 : Launch := mkLaunch ⟨0, 5, 5⟩ ⟨2, 1, 1⟩ ⟨2, 4, 4⟩

/-- Three blocks of six threads on two 4-warp, 4-lane cores
(`warps_per_group = 2`, tail `r = 2`). -/
def launchC5 : Launch := mkLaunch ⟨3, 1, 1⟩ ⟨6, 1, 1⟩ ⟨2, 4, 4⟩

/-- Three blocks of six threads on two 4-warp, 4-lane cores. -/
def launchC6 : Launch := mkLaunch ⟨3, 1, 1⟩ ⟨6, 1, 1⟩ ⟨2, 4, 4⟩

/-- The ideal (non-wrapping) slab offset `c * (n / A) + min c (n % A)`,
used to relate the wrapped `uint32_t` offsets of the code to exact arithmetic. -/
def offP (n A c : Nat) : Nat := c * (n / A) + min c (n % A)

/-- The ideal (non-wrapping) per-core share `n / A + (c < n % A ? 1 : 0)`. -/
def shareP (n A c : Nat) : Nat := n / A + (if c < n % A then 1 else 0)

/-- Grid `(2^32 - 1, 1, 1)` with blocks of 4 threads on two 2-warp, 4-lane
cores: `needed_warps + warps_per_core` overflows `uint32_t`, so the
needed-cores ceiling division yields 0 and no core is active. -/
def launchC3ov : Launch := mkLaunch ⟨4294967295, 1, 1⟩ ⟨4, 1, 1⟩ ⟨2, 2, 4⟩

/-- Five blocks of six threads on two 4-warp, 4-lane cores. -/
def launchC3w : Launch := mkLaunch ⟨5, 1, 1⟩ ⟨6, 1, 1⟩ ⟨2, 4, 4⟩

/-- Five blocks of six threads on two 4-warp, 4-lane cores. -/
def launchC8w : Launch := mkLaunch ⟨5, 1, 1⟩ ⟨6, 1, 1⟩ ⟨2, 4, 4⟩

/-- Two blocks of four threads on one 2-warp, 2-lane core: each block needs
2 warps, so the core batches and the per-core iteration total is
`groups_per_core * warps_per_group = 4`, not `groups_per_core = 2`. -/
def launchC4c : Launch := mkLaunch ⟨2, 1, 1⟩ ⟨4, 1, 1⟩ ⟨1, 2, 2⟩

/-- Three blocks of six threads on one 2-warp, 4-lane core. -/
def launchC4w : Launch := mkLaunch ⟨3, 1, 1⟩ ⟨6, 1, 1⟩ ⟨1, 2, 4⟩

/-- Grid `(2^32 - 1, 1, 1)` with a zero block axis on a 2-lane device:
`num_tasks + threads_per_core` overflows `uint32_t`, no core is active, and
the callback runs zero times. -/
def launchC9c : Launch := mkLaunch ⟨4294967295, 1, 1⟩ ⟨0, 1, 1⟩ ⟨1, 1, 2⟩

/-- Nine blocks with a zero block axis on two 1-warp, 4-lane cores. -/
def launchC9w : Launch := mkLaunch ⟨9, 1, 1⟩ ⟨0, 2, 3⟩ ⟨2, 1, 4⟩

/-- Raw arguments with an out-of-range `dimension` and a grid array whose
later entries would change the geometry if they were read. -/
def cfgC10 : Cfg :=
  { dimension := 5, gridPtr := some fun i => if i = 0 then 3 else 2,
    blockPtr := none, dev := ⟨2, 4, 4⟩, gridDim0 := ⟨0, 0, 0⟩,
    blockDim0 := ⟨0, 0, 0⟩, warpsPerGroup0 := 0,
    initBlockIdx := fun _ => ⟨0, 0, 0⟩, initThreadIdx := fun _ => ⟨0, 0, 0⟩ }

end VxSpawn

namespace VxSpawn

/-! ### Basic arithmetic facts about the `uint32_t` embedding -/

theorem U_pos : 0 < U := by norm_num [U]

theorem w32_lt (n : Nat) : w32 n < U := Nat.mod_lt _ U_pos

theorem w32_eq {n : Nat} (h : n < U) : w32 n = n := Nat.mod_eq_of_lt h

theorem wsub32_one {n : Nat} (h1 : 1 ≤ n) (h2 : n < U) : wsub32 n 1 = n - 1 := by
  unfold wsub32
  rw [w32_eq h2, w32_eq (show (1 : Nat) < U by norm_num [U])]
  have h3 : n + U - 1 = (n - 1) + U := by omega
  rw [h3, Nat.add_mod_right]
  exact Nat.mod_eq_of_lt (by omega)

theorem ceilU32_eq {a b : Nat} (hb : 0 < b) (h : a + b < U) :
    ceilU32 a b = (a + b - 1) / b := by
  unfold ceilU32
  rw [w32_eq h, wsub32_one (by omega) h]

theorem ceilU32_zero {b : Nat} (hb : 0 < b) (hbU : b < U) : ceilU32 0 b = 0 := by
  rw [ceilU32_eq hb (by omega)]
  exact Nat.div_eq_of_lt (by omega)

theorem ceilU32_one {b : Nat} (hb : 0 < b) (hbU : b < U) : ceilU32 1 b = 1 := by
  rcases Nat.lt_or_ge (1 + b) U with h | h
  · rw [ceilU32_eq hb h]
    have h1 : 1 + b - 1 = b := by omega
    rw [h1, Nat.div_self hb]
  · have hb1 : b = U - 1 := by omega
    subst hb1
    norm_num [ceilU32, wsub32, w32, U]

theorem numGroups_lt (L : Launch) : L.numGroups < U := w32_lt _

theorem groupSize_lt (L : Launch) : L.groupSize < U := w32_lt _

/-- Under a well-formed device the capacity product does not wrap. -/
theorem threadsPerCore_eq (L : Launch) (hWF : L.dev.WF) :
    L.threadsPerCore = L.dev.warpsPerCore * L.dev.threadsPerWarp := by
  exact w32_eq hWF.2.2.2.2.2

theorem wpc_lt_U (L : Launch) (hWF : L.dev.WF) : L.dev.warpsPerCore < U := by
  obtain ⟨-, -, -, htpw, -, hprod⟩ := hWF
  calc L.dev.warpsPerCore = L.dev.warpsPerCore * 1 := (Nat.mul_one _).symm
    _ ≤ L.dev.warpsPerCore * L.dev.threadsPerWarp := Nat.mul_le_mul_left _ htpw
    _ < U := hprod

theorem threadsPerCore_pos (L : Launch) (hWF : L.dev.WF) : 0 < L.threadsPerCore := by
  rw [threadsPerCore_eq L hWF]
  exact Nat.mul_pos hWF.2.2.1 hWF.2.2.2.1

/-! ### Generic list length facts -/

theorem length_flatMap_sum {α β : Type} (l : List α) (f : α → List β) :
    (l.flatMap f).length = (l.map fun a => (f a).length).sum := by
  induction l with
  | nil => rfl
  | cons a l ih => simp [List.flatMap_cons, ih]

theorem sum_map_range {M : Type} [AddCommMonoid M] (f : Nat → M) (n : Nat) :
    ((List.range n).map f).sum = ∑ i ∈ Finset.range n, f i := by
  induction n with
  | zero => rfl
  | succ n ih =>
      rw [List.range_succ, List.map_append, List.sum_append, Finset.sum_range_succ, ih]
      simp

theorem sum_range_ite_lt (r A : Nat) :
    (∑ c ∈ Finset.range A, if c < r then 1 else 0) = min r A := by
  induction A with
  | zero => simp
  | succ A ih =>
      rw [Finset.sum_range_succ, ih]
      rcases Nat.lt_or_ge A r with h | h
      · rw [if_pos h]; omega
      · rw [if_neg (Nat.not_lt.mpr h)]; omega

theorem length_filter_range_lt (n m : Nat) :
    ((List.range n).filter fun t => decide (t < m)).length = min m n := by
  induction n with
  | zero => simp
  | succ n ih =>
      rw [List.range_succ, List.filter_append, List.length_append, ih]
      rcases Nat.lt_or_ge n m with h | h
      · simp [h]; omega
      · simp [Nat.not_lt.mpr h]; omega

/-! ### Return value and error path -/

/-- The error branch (lines 184-188) returns `-1` before any other effect:
only the normalization loop has run. -/
theorem spawnCore_err (L : Launch) (c : Nat) (h : L.threadsPerCore < L.groupSize) :
    L.spawnCore c =
      { ret := -1, invs := [], wspawns := [],
        gridDimG := L.gDim, blockDimG := L.bDim, warpsPerGroupG := L.warpsPerGroup0 } := by
  unfold Launch.spawnCore
  rw [if_pos h]

/-- Every non-error path of `vx_spawn_threads` returns `0`. -/
theorem spawnCore_ret_ok (L : Launch) (c : Nat) (hval : L.groupSize ≤ L.threadsPerCore) :
    (L.spawnCore c).ret = 0 := by
  unfold Launch.spawnCore
  rw [if_neg (Nat.not_lt.mpr hval)]
  split
  · split <;> rfl
  · split <;> rfl


/-! ### Facts about `warps_per_group` -/

theorem warpsPerGroup_eq (L : Launch) (htpw : 0 < L.dev.threadsPerWarp) :
    L.warpsPerGroup = L.groupSize / L.dev.threadsPerWarp +
      (if L.groupSize % L.dev.threadsPerWarp ≠ 0 then 1 else 0) := by
  unfold Launch.warpsPerGroup Launch.remainingThreads
  by_cases hr : L.groupSize % L.dev.threadsPerWarp = 0
  · simp [hr]
  · rw [if_pos hr, if_pos hr]
    have htpw2 : 2 ≤ L.dev.threadsPerWarp := by
      rcases Nat.lt_or_ge L.dev.threadsPerWarp 2 with h | h
      · have h1 : L.dev.threadsPerWarp = 1 := by omega
        rw [h1] at hr
        simp [Nat.mod_one] at hr
      · exact h
    have hq : L.groupSize / L.dev.threadsPerWarp ≤ L.groupSize / 2 :=
      Nat.div_le_div_left htpw2 (by norm_num)
    have hgsU := groupSize_lt L
    have hlt : L.groupSize / L.dev.threadsPerWarp + 1 < U := by
      have h2 : L.groupSize / 2 ≤ (U - 1) / 2 := Nat.div_le_div_right (by omega)
      have h3 : (U - 1) / 2 + 1 < U := by norm_num [U]
      omega
    rw [w32_eq hlt]

theorem warpsPerGroup_pos (L : Launch) (htpw : 0 < L.dev.threadsPerWarp)
    (hgs : 1 < L.groupSize) : 1 ≤ L.warpsPerGroup := by
  have hdm := Nat.div_add_mod L.groupSize L.dev.threadsPerWarp
  rw [warpsPerGroup_eq L htpw]
  by_cases hr : L.groupSize % L.dev.threadsPerWarp = 0
  · simp only [hr, ne_eq, not_true_eq_false, if_false, Nat.add_zero]
    rcases Nat.eq_zero_or_pos (L.groupSize / L.dev.threadsPerWarp) with hq | hq
    · rw [hq, Nat.mul_zero] at hdm
      omega
    · exact hq
  · simp only [hr, ne_eq, not_false_eq_true, if_true]
    exact Nat.le_add_left 1 _

theorem warpsPerGroup_le (L : Launch) (hWF : L.dev.WF)
    (hval : L.groupSize ≤ L.threadsPerCore) :
    L.warpsPerGroup ≤ L.dev.warpsPerCore := by
  have htpw : 0 < L.dev.threadsPerWarp := hWF.2.2.2.1
  have hvp : L.groupSize ≤ L.dev.warpsPerCore * L.dev.threadsPerWarp := by
    rw [threadsPerCore_eq L hWF] at hval
    exact hval
  have hdm := Nat.div_add_mod L.groupSize L.dev.threadsPerWarp
  have hcomm : L.dev.warpsPerCore * L.dev.threadsPerWarp
      = L.dev.threadsPerWarp * L.dev.warpsPerCore := Nat.mul_comm _ _
  rw [warpsPerGroup_eq L htpw]
  by_cases hr : L.groupSize % L.dev.threadsPerWarp = 0
  · simp only [hr, ne_eq, not_true_eq_false, if_false, Nat.add_zero]
    exact Nat.le_of_mul_le_mul_left (by omega) htpw
  · simp only [hr, ne_eq, not_false_eq_true, if_true]
    have hr1 : 1 ≤ L.groupSize % L.dev.threadsPerWarp := Nat.pos_of_ne_zero hr
    have hlt : L.dev.threadsPerWarp * (L.groupSize / L.dev.threadsPerWarp)
        < L.dev.threadsPerWarp * L.dev.warpsPerCore := by omega
    have := Nat.lt_of_mul_lt_mul_left hlt
    omega

theorem warpsPerGroup_lt_U (L : Launch) (hWF : L.dev.WF)
    (hval : L.groupSize ≤ L.threadsPerCore) :
    L.warpsPerGroup < U :=
  lt_of_le_of_lt (warpsPerGroup_le L hWF hval) (wpc_lt_U L hWF)

/-- C6: for every validated launch with `group_size > 1`, the computed
`warps_per_group` equals `ceil(group_size / threads_per_warp)`, its lanes
cover the block (`warps_per_group * threads_per_warp >= group_size`) and it
fits the core (`warps_per_group * threads_per_warp <= warps_per_core *
threads_per_warp`). -/
theorem spawn_c6_warp_demand (L : Launch) (hWF : L.dev.WF)
    (hval : L.groupSize ≤ L.threadsPerCore) (hgs : 1 < L.groupSize) :
    L.warpsPerGroup = (L.groupSize + L.dev.threadsPerWarp - 1) / L.dev.threadsPerWarp
  ∧ L.groupSize ≤ L.warpsPerGroup * L.dev.threadsPerWarp
  ∧ L.warpsPerGroup * L.dev.threadsPerWarp
      ≤ L.dev.warpsPerCore * L.dev.threadsPerWarp := by
  have htpw : 0 < L.dev.threadsPerWarp := hWF.2.2.2.1
  have hdm := Nat.div_add_mod L.groupSize L.dev.threadsPerWarp
  have hrlt : L.groupSize % L.dev.threadsPerWarp < L.dev.threadsPerWarp :=
    Nat.mod_lt _ htpw
  have hle := warpsPerGroup_le L hWF hval
  have heq := warpsPerGroup_eq L htpw
  refine ⟨?_, ?_, ?_⟩
  · rw [heq]
    by_cases hr : L.groupSize % L.dev.threadsPerWarp = 0
    · simp only [hr, ne_eq, not_true_eq_false, if_false, Nat.add_zero]
      have h1 : L.groupSize + L.dev.threadsPerWarp - 1
          = L.dev.threadsPerWarp * (L.groupSize / L.dev.threadsPerWarp)
            + (L.dev.threadsPerWarp - 1) := by omega
      have h2 : (L.dev.threadsPerWarp - 1) / L.dev.threadsPerWarp = 0 :=
        Nat.div_eq_of_lt (by omega)
      rw [h1, Nat.mul_add_div htpw, h2, Nat.add_zero]
    · simp only [hr, ne_eq, not_false_eq_true, if_true]
      have hr1 : 1 ≤ L.groupSize % L.dev.threadsPerWarp := Nat.pos_of_ne_zero hr
      have hmul : L.dev.threadsPerWarp * (L.groupSize / L.dev.threadsPerWarp + 1)
          = L.dev.threadsPerWarp * (L.groupSize / L.dev.threadsPerWarp)
            + L.dev.threadsPerWarp := Nat.mul_succ _ _
      have h1 : L.groupSize + L.dev.threadsPerWarp - 1
          = L.dev.threadsPerWarp * (L.groupSize / L.dev.threadsPerWarp + 1)
            + (L.groupSize % L.dev.threadsPerWarp - 1) := by omega
      have h2 : (L.groupSize % L.dev.threadsPerWarp - 1) / L.dev.threadsPerWarp = 0 :=
        Nat.div_eq_of_lt (by omega)
      rw [h1, Nat.mul_add_div htpw, h2, Nat.add_zero]
  · rw [heq]
    by_cases hr : L.groupSize % L.dev.threadsPerWarp = 0
    · simp only [hr, ne_eq, not_true_eq_false, if_false, Nat.add_zero]
      have hc : L.groupSize / L.dev.threadsPerWarp * L.dev.threadsPerWarp
          = L.dev.threadsPerWarp * (L.groupSize / L.dev.threadsPerWarp) :=
        Nat.mul_comm _ _
      omega
    · simp only [hr, ne_eq, not_false_eq_true, if_true]
      have hc : (L.groupSize / L.dev.threadsPerWarp + 1) * L.dev.threadsPerWarp
          = L.dev.threadsPerWarp * (L.groupSize / L.dev.threadsPerWarp)
            + L.dev.threadsPerWarp := by
        rw [Nat.mul_comm]
        exact Nat.mul_succ _ _
      omega
  · exact Nat.mul_le_mul_right _ hle

/-- C5: in the `group_size > 1` path, the stub raises the tail mask
`(1 << r) - 1` on the last warp of every block (activating exactly the `r`
lowest lanes) and the all-ones mask elsewhere; when `r = 0` every warp of
the block activates all `threads_per_warp` lanes. -/
theorem spawn_c5_tail_mask (L : Launch) (wid t : Nat) (hWF : L.dev.WF)
    (hval : L.groupSize ≤ L.threadsPerCore) (hgs : 1 < L.groupSize) :
    (L.remainingThreads ≠ 0 → wid % L.warpsPerGroup = L.warpsPerGroup - 1 →
        (L.laneActive wid t = true ↔ t < L.remainingThreads))
  ∧ (L.remainingThreads ≠ 0 → ¬ wid % L.warpsPerGroup = L.warpsPerGroup - 1 →
        (L.laneActive wid t = true ↔ t < L.dev.threadsPerWarp))
  ∧ (L.remainingThreads = 0 →
        (L.laneActive wid t = true ↔ t < L.dev.threadsPerWarp)) := by
  have htpw : 0 < L.dev.threadsPerWarp := hWF.2.2.2.1
  have htpw32 : L.dev.threadsPerWarp ≤ 32 := hWF.2.2.2.2.1
  have hpos := warpsPerGroup_pos L htpw hgs
  have hltU := warpsPerGroup_lt_U L hWF hval
  have hsub : wsub32 L.warpsPerGroup 1 = L.warpsPerGroup - 1 := wsub32_one hpos hltU
  have hUbit : U - 1 = 2 ^ 32 - 1 := by norm_num [U]
  have hrlt : L.remainingThreads < L.dev.threadsPerWarp := Nat.mod_lt _ htpw
  refine ⟨?_, ?_, ?_⟩
  · intro hr hw
    unfold Launch.laneActive Launch.tmcMask
    rw [hsub, if_pos hw]
    unfold Launch.remainingMask
    rw [if_pos hr]
    have hshift : (1 : Nat) <<< L.remainingThreads = 2 ^ L.remainingThreads := by
      rw [Nat.shiftLeft_eq, Nat.one_mul]
    have hpow : 2 ^ L.remainingThreads < U := by
      have h31 : (2 : Nat) ^ L.remainingThreads ≤ 2 ^ 31 :=
        Nat.pow_le_pow_right (by norm_num) (by omega)
      have : (2 : Nat) ^ 31 < U := by norm_num [U]
      omega
    rw [hshift, w32_eq hpow, wsub32_one Nat.one_le_two_pow hpow,
      Nat.testBit_two_pow_sub_one]
    simp only [Bool.and_eq_true, decide_eq_true_eq]
    constructor
    · rintro ⟨-, h2⟩
      exact h2
    · intro h
      exact ⟨by omega, h⟩
  · intro hr hw
    unfold Launch.laneActive Launch.tmcMask
    rw [hsub, if_neg hw, hUbit, Nat.testBit_two_pow_sub_one]
    simp only [Bool.and_eq_true, decide_eq_true_eq]
    constructor
    · rintro ⟨h1, -⟩
      exact h1
    · intro h
      exact ⟨h, by omega⟩
  · intro hr
    have hmask : L.tmcMask wid = U - 1 := by
      unfold Launch.tmcMask Launch.remainingMask
      rw [if_neg (show ¬ L.remainingThreads ≠ 0 from fun h => h hr), ite_self]
    unfold Launch.laneActive
    rw [hmask, hUbit, Nat.testBit_two_pow_sub_one]
    simp only [Bool.and_eq_true, decide_eq_true_eq]
    constructor
    · rintro ⟨h1, -⟩
      exact h1
    · intro h
      exact ⟨h, by omega⟩


/-! ### Claim C1 -/

/-- C1 (code bug): on device `(num_cores, warps_per_core, threads_per_warp)
= (1, 1, 4)` with `grid = (5,1,1)`, `block = (1,1,1)`, the launch is valid
and the callback does run `num_groups = 5` times, but the claimed coverage
fails: `process_remaining_threads` computes its `task_id` without writing
`blockIdx`, so the tail task 4 is invoked with the stale `blockIdx`
`(0,0,0)` left by lane 0 of warp 0 - block `(4,0,0)` is never observed and
`(0,0,0)` is observed twice. -/
theorem spawn_c1_tail_blockIdx_bug :
    launchC1.dev.WF
  ∧ launchC1.groupSize = 1
  ∧ launchC1.numGroups = 5
  ∧ launchC1.groupSize ≤ launchC1.threadsPerCore
  ∧ (launchC1.spawnCore 0).ret = 0
  ∧ launchC1.totalInvs = 5
  ∧ launchC1.countBlockIdx ⟨4, 0, 0⟩ = 0
  ∧ launchC1.countBlockIdx ⟨0, 0, 0⟩ = 2 := by
  decide

/-! ### Claim C2 -/

/-- C2 counterexample: the oversize launch does return `-1`, but the
claimed property that no launch-visible state (including the published
globals `gridDim` and `blockDim`) is mutated before the error return is
false: the normalization
loop (lines 166-173) stores the normalized geometry into the globals before
the capacity check at line 184, so after the failed call both globals
differ from their pre-call contents. -/
theorem spawn_c2_counterexample :
    (launchC2err.spawnCore 0).ret = -1
  ∧ (launchC2err.spawnCore 0).blockDimG ≠ launchC2err.blockDim0
  ∧ (launchC2err.spawnCore 0).gridDimG ≠ launchC2err.gridDim0 := by
  decide

/-- C2 (amended): whenever `group_size` exceeds `warps_per_core *
threads_per_warp` the call returns `-1` synchronously with no callback
invocation and no warp spawn, but `gridDim` and `blockDim` have already
been overwritten with the normalized launch geometry (and
`__warps_per_group` is left untouched); every input that passes the
capacity check returns `0`. -/
theorem spawn_c2_amended (L : Launch) (c : Nat) :
    (L.threadsPerCore < L.groupSize →
      (L.spawnCore c).ret = -1 ∧ (L.spawnCore c).invs = []
        ∧ (L.spawnCore c).wspawns = []
        ∧ (L.spawnCore c).gridDimG = L.gDim ∧ (L.spawnCore c).blockDimG = L.bDim
        ∧ (L.spawnCore c).warpsPerGroupG = L.warpsPerGroup0)
  ∧ (L.groupSize ≤ L.threadsPerCore → (L.spawnCore c).ret = 0) := by
  constructor
  · intro h
    rw [spawnCore_err L c h]
    exact ⟨rfl, rfl, rfl, rfl, rfl, rfl⟩
  · intro h
    exact spawnCore_ret_ok L c h

theorem spawn_c2_witness :
    (launchC2err.threadsPerCore < launchC2err.groupSize
      ∧ (launchC2err.spawnCore 0).ret = -1
      ∧ (launchC2err.spawnCore 0).invs = []
      ∧ (launchC2err.spawnCore 0).wspawns = [])
  ∧ (launchC2ok.groupSize ≤ launchC2ok.threadsPerCore
      ∧ (launchC2ok.spawnCore 1).ret = 0) :=
  ⟨⟨by decide, ((spawn_c2_amended launchC2err 0).1 (by decide)).1,
    ((spawn_c2_amended launchC2err 0).1 (by decide)).2.1,
    ((spawn_c2_amended launchC2err 0).1 (by decide)).2.2.1⟩,
   ⟨by decide, (spawn_c2_amended launchC2ok 1).2 (by decide)⟩⟩

/-! ### Claim C7 -/

/-- C7: a launch with `num_groups = 0` whose block passes the capacity
check is a no-op on every core: it returns `0`, invokes no callback
anywhere on the device, and issues no warp spawn. -/
theorem spawn_c7_zero_grid (L : Launch) (c : Nat) (hWF : L.dev.WF)
    (hval : L.groupSize ≤ L.threadsPerCore) (hng : L.numGroups = 0) :
    (L.spawnCore c).ret = 0 ∧ (L.spawnCore c).invs = []
  ∧ (L.spawnCore c).wspawns = [] ∧ L.totalInvs = 0 := by
  have hwpc : 0 < L.dev.warpsPerCore := hWF.2.2.1
  have hwpcU := wpc_lt_U L hWF
  have htpc : 0 < L.threadsPerCore := threadsPerCore_pos L hWF
  have htpcU : L.threadsPerCore < U := w32_lt _
  have hAG : L.activeCoresG = 0 := by
    unfold Launch.activeCoresG Launch.neededWarps
    rw [hng]
    rw [Nat.zero_mul, show w32 0 = 0 from rfl, ceilU32_zero hwpc hwpcU]
    exact Nat.zero_min _
  have hAT : L.activeCoresT = 0 := by
    unfold Launch.activeCoresT
    rw [hng, ceilU32_zero htpc htpcU]
    exact Nat.zero_min _
  have hcore : ∀ c0 : Nat, L.spawnCore c0 =
      { ret := 0, invs := [], wspawns := [], gridDimG := L.gDim, blockDimG := L.bDim,
        warpsPerGroupG := if 1 < L.groupSize then L.warpsPerGroup0 else 0 } := by
    intro c0
    unfold Launch.spawnCore
    rw [if_neg (Nat.not_lt.mpr hval)]
    by_cases h : 1 < L.groupSize
    · rw [if_pos h, if_pos (by rw [hAG]; exact Nat.zero_le _), if_pos h]
    · rw [if_neg h, if_pos (by rw [hAT]; exact Nat.zero_le _), if_neg h]
  refine ⟨?_, ?_, ?_, ?_⟩
  · rw [hcore c]
  · rw [hcore c]
  · rw [hcore c]
  · unfold Launch.totalInvs Launch.allInvs
    rw [length_flatMap_sum]
    apply List.sum_eq_zero
    intro x hx
    simp only [List.mem_map] at hx
    obtain ⟨c0, -, rfl⟩ := hx
    rw [hcore c0]
    rfl

theorem spawn_c7_witness :
    launchC7.numGroups = 0 ∧ launchC7.groupSize ≤ launchC7.threadsPerCore
  ∧ (launchC7.spawnCore 0).ret = 0 ∧ (launchC7.spawnCore 0).invs = []
  ∧ (launchC7.spawnCore 0).wspawns = [] ∧ launchC7.totalInvs = 0 :=
  ⟨by decide, by decide,
   (spawn_c7_zero_grid launchC7 0 (by decide) (by decide) (by decide)).1,
   (spawn_c7_zero_grid launchC7 0 (by decide) (by decide) (by decide)).2.1,
   (spawn_c7_zero_grid launchC7 0 (by decide) (by decide) (by decide)).2.2.1,
   (spawn_c7_zero_grid launchC7 0 (by decide) (by decide) (by decide)).2.2.2⟩

/-! ### Witnesses for claims C5 and C6 -/

theorem spawn_c5_witness :
    launchC5.remainingThreads = 2
  ∧ 1 % launchC5.warpsPerGroup = launchC5.warpsPerGroup - 1
  ∧ ¬ 0 % launchC5.warpsPerGroup = launchC5.warpsPerGroup - 1
  ∧ (launchC5.laneActive 1 1 = true ↔ 1 < launchC5.remainingThreads)
  ∧ (launchC5.laneActive 1 3 = true ↔ 3 < launchC5.remainingThreads)
  ∧ (launchC5.laneActive 0 3 = true ↔ 3 < launchC5.dev.threadsPerWarp) :=
  ⟨by decide, by decide, by decide,
   (spawn_c5_tail_mask launchC5 1 1 (by decide) (by decide) (by decide)).1
     (by decide) (by decide),
   (spawn_c5_tail_mask launchC5 1 3 (by decide) (by decide) (by decide)).1
     (by decide) (by decide),
   (spawn_c5_tail_mask launchC5 0 3 (by decide) (by decide) (by decide)).2.1
     (by decide) (by decide)⟩

theorem spawn_c6_witness :
    launchC6.dev.WF ∧ launchC6.groupSize ≤ launchC6.threadsPerCore
  ∧ 1 < launchC6.groupSize
  ∧ launchC6.warpsPerGroup
      = (launchC6.groupSize + launchC6.dev.threadsPerWarp - 1) / launchC6.dev.threadsPerWarp
  ∧ launchC6.groupSize ≤ launchC6.warpsPerGroup * launchC6.dev.threadsPerWarp
  ∧ launchC6.warpsPerGroup * launchC6.dev.threadsPerWarp
      ≤ launchC6.dev.warpsPerCore * launchC6.dev.threadsPerWarp :=
  ⟨by decide, by decide, by decide,
   (spawn_c6_warp_demand launchC6 (by decide) (by decide) (by decide)).1,
   (spawn_c6_warp_demand launchC6 (by decide) (by decide) (by decide)).2.1,
   (spawn_c6_warp_demand launchC6 (by decide) (by decide) (by decide)).2.2⟩


/-! ### The balanced contiguous partition -/

theorem shareP_succ (n A c : Nat) : offP n A (c + 1) = offP n A c + shareP n A c := by
  unfold offP shareP
  have hm : (c + 1) * (n / A) = c * (n / A) + n / A := Nat.succ_mul _ _
  by_cases h : c < n % A
  · rw [if_pos h]
    omega
  · rw [if_neg h]
    omega

theorem offP_mono (n A : Nat) : Monotone (offP n A) :=
  monotone_nat_of_le_succ fun c => by
    rw [shareP_succ]
    exact Nat.le_add_right _ _

theorem offP_top (n A : Nat) (hA : 0 < A) : offP n A A = n := by
  unfold offP
  have h1 : min A (n % A) = n % A := Nat.min_eq_right (le_of_lt (Nat.mod_lt _ hA))
  have h2 : A * (n / A) = n / A * A := Nat.mul_comm _ _
  have h3 := Nat.div_add_mod n A
  omega

theorem biUnion_Ico_consec (f : Nat → Nat) (A : Nat) (h0 : f 0 = 0)
    (hm : ∀ c, f c ≤ f (c + 1)) :
    (Finset.range A).biUnion (fun c => Finset.Ico (f c) (f (c + 1)))
      = Finset.range (f A) := by
  induction A with
  | zero => simp [h0]
  | succ A ih =>
      rw [Finset.range_succ, Finset.biUnion_insert, ih]
      ext x
      simp only [Finset.mem_union, Finset.mem_Ico, Finset.mem_range]
      have := hm A
      omega

/-- The per-core share does not wrap: its `+ 1` stays below `2^32`. -/
theorem perCore_eq (L : Launch) (A c : Nat) (hA : 0 < A) :
    L.perCore A c = shareP L.numGroups A c := by
  unfold Launch.perCore shareP
  by_cases h : c < L.numGroups % A
  · rw [if_pos h, if_pos h]
    have hA2 : 2 ≤ A := by
      by_contra hA2
      have hA1 : A = 1 := by omega
      rw [hA1] at h
      simp [Nat.mod_one] at h
    have hn := numGroups_lt L
    have h1 : L.numGroups / A ≤ L.numGroups / 2 :=
      Nat.div_le_div_left hA2 (by norm_num)
    have h2 : L.numGroups / 2 ≤ (U - 1) / 2 := Nat.div_le_div_right (by omega)
    have h3 : (U - 1) / 2 + 1 < U := by norm_num [U]
    rw [w32_eq (by omega)]
  · rw [if_neg h, if_neg h, Nat.add_zero]

/-- The slab offset does not wrap for cores within the active range. -/
theorem coreOffset_eq (L : Launch) (A c : Nat) (hA : 0 < A) (hc : c ≤ A) :
    L.coreOffset A c = offP L.numGroups A c := by
  have hoff : offP L.numGroups A c ≤ L.numGroups :=
    le_trans (offP_mono _ _ hc) (le_of_eq (offP_top _ _ hA))
  have hn := numGroups_lt L
  unfold Launch.coreOffset
  unfold offP at hoff ⊢
  rw [w32_eq (show c * (L.numGroups / A) < U by omega),
    w32_eq (show c * (L.numGroups / A) + min c (L.numGroups % A) < U by omega)]

theorem perCore_sum (L : Launch) (A : Nat) (hA : 0 < A) :
    (∑ c ∈ Finset.range A, L.perCore A c) = L.numGroups := by
  have hmod : L.numGroups % A < A := Nat.mod_lt _ hA
  have hcg : ∀ c ∈ Finset.range A, L.perCore A c = shareP L.numGroups A c :=
    fun c _ => perCore_eq L A c hA
  rw [Finset.sum_congr rfl hcg]
  unfold shareP
  rw [Finset.sum_add_distrib, Finset.sum_const, Finset.card_range,
    sum_range_ite_lt, smul_eq_mul]
  have h3 := Nat.div_add_mod L.numGroups A
  have h4 : min (L.numGroups % A) A = L.numGroups % A :=
    Nat.min_eq_left (le_of_lt hmod)
  omega

/-! ### Claim C3 -/

/-- C3 counterexample: at `num_groups = 2^32 - 1` with `warps_per_group = 1`
on a 2-warp device, the `uint32_t` expression `needed_warps + warps_per_core
- 1` wraps, the needed-cores division yields 0, `active_cores = 0`, and the
union of the (zero) per-core slabs is empty rather than `[0, num_groups)`. -/
theorem spawn_c3_counterexample :
    launchC3ov.dev.WF
  ∧ launchC3ov.groupSize ≤ launchC3ov.threadsPerCore
  ∧ 0 < launchC3ov.numGroups
  ∧ launchC3ov.activeCores = 0
  ∧ ¬ ((Finset.range launchC3ov.activeCores).biUnion
        (fun c => Finset.Ico (launchC3ov.coreOffset launchC3ov.activeCores c)
          (launchC3ov.coreOffset launchC3ov.activeCores c
            + launchC3ov.perCore launchC3ov.activeCores c))
      = Finset.range launchC3ov.numGroups) := by
  refine ⟨by decide, by decide, by decide, by decide, ?_⟩
  intro h
  have h0 : (0 : Nat) ∈ Finset.range launchC3ov.numGroups :=
    Finset.mem_range.mpr (by decide)
  rw [← h, show launchC3ov.activeCores = 0 from by decide] at h0
  simp at h0

/-- C3 (amended): for every validated launch with `num_groups > 0` on which
at least one core is active (the needed-cores computation can wrap to 0 in
`uint32_t` for launches near `2^32` warps, leaving no active core), each
active core `c` owns the contiguous slab starting at `c * base + min(c,
rem)` of length `base + (c < rem ? 1 : 0)`; the slabs are ascending and
pairwise disjoint in `core_id` and their union is exactly
`[0, num_groups)`. -/
theorem spawn_c3_amended (L : Launch) (hWF : L.dev.WF)
    (hval : L.groupSize ≤ L.threadsPerCore) (hng : 0 < L.numGroups)
    (hact : 1 ≤ L.activeCores) :
    (∀ c, c < L.activeCores →
        L.coreOffset L.activeCores c
          = c * (L.numGroups / L.activeCores) + min c (L.numGroups % L.activeCores)
      ∧ L.perCore L.activeCores c
          = L.numGroups / L.activeCores
            + (if c < L.numGroups % L.activeCores then 1 else 0))
  ∧ (∀ c₁ c₂, c₁ < c₂ → c₂ < L.activeCores →
        L.coreOffset L.activeCores c₁ + L.perCore L.activeCores c₁
          ≤ L.coreOffset L.activeCores c₂)
  ∧ (Finset.range L.activeCores).biUnion
      (fun c => Finset.Ico (L.coreOffset L.activeCores c)
        (L.coreOffset L.activeCores c + L.perCore L.activeCores c))
    = Finset.range L.numGroups := by
  have hApos : 0 < L.activeCores := hact
  have hcong : ∀ c ∈ Finset.range L.activeCores,
      Finset.Ico (L.coreOffset L.activeCores c)
        (L.coreOffset L.activeCores c + L.perCore L.activeCores c)
      = Finset.Ico (offP L.numGroups L.activeCores c)
        (offP L.numGroups L.activeCores (c + 1)) := by
    intro c hc
    rw [coreOffset_eq L _ c hApos (le_of_lt (Finset.mem_range.mp hc)),
      perCore_eq L _ c hApos, shareP_succ]
  refine ⟨?_, ?_, ?_⟩
  · intro c hc
    exact ⟨coreOffset_eq L _ c hApos (le_of_lt hc), perCore_eq L _ c hApos⟩
  · intro c₁ c₂ h12 h2A
    rw [coreOffset_eq L _ c₁ hApos (by omega), perCore_eq L _ c₁ hApos,
      coreOffset_eq L _ c₂ hApos (le_of_lt h2A), ← shareP_succ]
    exact offP_mono _ _ (by omega)
  · rw [Finset.biUnion_congr rfl hcong,
      biUnion_Ico_consec _ L.activeCores (by simp [offP])
        (fun c => by rw [shareP_succ]; exact Nat.le_add_right _ _),
      offP_top _ _ hApos]

theorem spawn_c3_witness :
    launchC3w.dev.WF ∧ 0 < launchC3w.numGroups ∧ 1 ≤ launchC3w.activeCores
  ∧ (Finset.range launchC3w.activeCores).biUnion
      (fun c => Finset.Ico (launchC3w.coreOffset launchC3w.activeCores c)
        (launchC3w.coreOffset launchC3w.activeCores c
          + launchC3w.perCore launchC3w.activeCores c))
    = Finset.range launchC3w.numGroups :=
  ⟨by decide, by decide, by decide,
   (spawn_c3_amended launchC3w (by decide) (by decide) (by decide)
     (by decide)).2.2⟩

/-! ### Claim C8 -/

/-- C8: for every validated launch with `num_groups > 0`, any two active
core shares differ by at most one block; since the same expression
computes `tasks_per_core` in the `group_size == 1` path (lines 287-291),
the bound covers both paths through `activeCores`. -/
theorem spawn_c8_balanced (L : Launch) (c₁ c₂ : Nat) (hWF : L.dev.WF)
    (hval : L.groupSize ≤ L.threadsPerCore) (hng : 0 < L.numGroups)
    (h1 : c₁ < L.activeCores) (h2 : c₂ < L.activeCores) :
    L.perCore L.activeCores c₁ ≤ L.perCore L.activeCores c₂ + 1 := by
  have hApos : 0 < L.activeCores := by omega
  rw [perCore_eq L _ c₁ hApos, perCore_eq L _ c₂ hApos]
  unfold shareP
  split_ifs <;> omega

theorem spawn_c8_witness :
    0 < launchC8w.numGroups ∧ 1 < launchC8w.activeCores
  ∧ launchC8w.perCore launchC8w.activeCores 0
      ≤ launchC8w.perCore launchC8w.activeCores 1 + 1 :=
  ⟨by decide, by decide,
   spawn_c8_balanced launchC8w 0 1 (by decide) (by decide) (by decide)
     (by decide) (by decide)⟩


/-! ### Claim C4 -/

/-- C4 counterexample: two blocks of four threads on a single 2-warp,
2-lane core satisfy the oversubscription condition of the claim, but the sum of
`iterations` over the active warps of the core is `groups_per_core *
warps_per_group = 4`, not `groups_per_core = 2` as the claim states. -/
theorem spawn_c4_counterexample :
    launchC4c.dev.WF
  ∧ launchC4c.groupSize ≤ launchC4c.threadsPerCore
  ∧ 1 < launchC4c.groupSize
  ∧ launchC4c.dev.numCores * launchC4c.dev.warpsPerCore
      < launchC4c.numGroups * launchC4c.warpsPerGroup
  ∧ 0 < launchC4c.activeCoresG
  ∧ (∑ wid ∈ Finset.range (launchC4c.activeWarpsG 0), launchC4c.iterationsG 0 wid)
      = launchC4c.groupsPerCore 0 * launchC4c.warpsPerGroup
  ∧ (∑ wid ∈ Finset.range (launchC4c.activeWarpsG 0), launchC4c.iterationsG 0 wid)
      ≠ launchC4c.groupsPerCore 0 := by
  decide

/-- C4 (amended): for a validated launch with `group_size > 1` under the
oversubscription condition of the claim, on each active core whose warp demand
does not wrap `uint32_t`, the sum of `iterations` over the active warps is
`groups_per_core * warps_per_group` (the claim said `groups_per_core`,
which only matches when `warps_per_group = 1`), and per-warp iteration
counts differ by at most 1. -/
theorem spawn_c4_amended (L : Launch) (c : Nat) (hWF : L.dev.WF)
    (hval : L.groupSize ≤ L.threadsPerCore) (hgs : 1 < L.groupSize)
    (hover : L.dev.numCores * L.dev.warpsPerCore
      < L.numGroups * L.warpsPerGroup)
    (hc : c < L.activeCoresG)
    (hnw : L.groupsPerCore c * L.warpsPerGroup < U) :
    (∑ wid ∈ Finset.range (L.activeWarpsG c), L.iterationsG c wid)
      = L.groupsPerCore c * L.warpsPerGroup
  ∧ ∀ w₁ w₂, w₁ < L.activeWarpsG c → w₂ < L.activeWarpsG c →
      L.iterationsG c w₁ ≤ L.iterationsG c w₂ + 1 := by
  have htpw : 0 < L.dev.threadsPerWarp := hWF.2.2.2.1
  have hwpg1 : 1 ≤ L.warpsPerGroup := warpsPerGroup_pos L htpw hgs
  have hwpgle := warpsPerGroup_le L hWF hval
  have hconc1 : 1 ≤ L.concurrentGroups :=
    (Nat.one_le_div_iff hwpg1).mpr hwpgle
  have htw : L.totalWarpsG c = L.groupsPerCore c * L.warpsPerGroup := w32_eq hnw
  have haw_le : L.concurrentGroups * L.warpsPerGroup ≤ L.dev.warpsPerCore :=
    Nat.div_mul_le_self _ _
  have hawU : w32 (L.concurrentGroups * L.warpsPerGroup)
      = L.concurrentGroups * L.warpsPerGroup :=
    w32_eq (lt_of_le_of_lt haw_le (wpc_lt_U L hWF))
  constructor
  · by_cases h : L.dev.warpsPerCore < L.totalWarpsG c
    · have hAW : L.activeWarpsG c = L.concurrentGroups * L.warpsPerGroup := by
        unfold Launch.activeWarpsG
        rw [if_pos h, hawU]
      have hWB : L.warpBatchesG c
          = L.totalWarpsG c / (L.concurrentGroups * L.warpsPerGroup) := by
        unfold Launch.warpBatchesG
        rw [if_pos h, hawU]
      have hRW : L.remainingWarpsG c
          = L.totalWarpsG c % (L.concurrentGroups * L.warpsPerGroup) := by
        unfold Launch.remainingWarpsG
        rw [if_pos h, hawU]
      have hawpos : 0 < L.concurrentGroups * L.warpsPerGroup :=
        Nat.mul_pos hconc1 hwpg1
      simp only [Launch.iterationsG, hWB, hRW, hAW]
      rw [Finset.sum_add_distrib, Finset.sum_const, Finset.card_range,
        sum_range_ite_lt, smul_eq_mul]
      have hmodlt : L.totalWarpsG c % (L.concurrentGroups * L.warpsPerGroup)
          < L.concurrentGroups * L.warpsPerGroup := Nat.mod_lt _ hawpos
      have hmin : min (L.totalWarpsG c % (L.concurrentGroups * L.warpsPerGroup))
          (L.concurrentGroups * L.warpsPerGroup)
          = L.totalWarpsG c % (L.concurrentGroups * L.warpsPerGroup) :=
        Nat.min_eq_left (le_of_lt hmodlt)
      have hdm := Nat.div_add_mod (L.totalWarpsG c)
        (L.concurrentGroups * L.warpsPerGroup)
      rw [hmin, ← htw]
      exact hdm
    · have hAW : L.activeWarpsG c = L.totalWarpsG c := by
        unfold Launch.activeWarpsG
        rw [if_neg h]
      have hWB : L.warpBatchesG c = 1 := by
        unfold Launch.warpBatchesG
        rw [if_neg h]
      have hRW : L.remainingWarpsG c = 0 := by
        unfold Launch.remainingWarpsG
        rw [if_neg h]
      simp only [Launch.iterationsG, hWB, hRW, hAW, Nat.not_lt_zero, if_false]
      rw [Finset.sum_const, Finset.card_range, smul_eq_mul, ← htw]
      omega
  · intro w₁ w₂ h1 h2
    unfold Launch.iterationsG
    split_ifs <;> omega

theorem spawn_c4_witness :
    launchC4w.dev.WF ∧ 1 < launchC4w.groupSize
  ∧ launchC4w.dev.numCores * launchC4w.dev.warpsPerCore
      < launchC4w.numGroups * launchC4w.warpsPerGroup
  ∧ 0 < launchC4w.activeCoresG
  ∧ launchC4w.groupsPerCore 0 * launchC4w.warpsPerGroup < U
  ∧ (∑ wid ∈ Finset.range (launchC4w.activeWarpsG 0), launchC4w.iterationsG 0 wid)
      = launchC4w.groupsPerCore 0 * launchC4w.warpsPerGroup :=
  ⟨by decide, by decide, by decide, by decide, by decide,
   (spawn_c4_amended launchC4w 0 (by decide) (by decide) (by decide)
     (by decide) (by decide) (by decide)).1⟩


/-! ### Counting the callback invocations of the task path -/

theorem sum_iterationsT (L : Launch) (c : Nat) (hwpc : 0 < L.dev.warpsPerCore) :
    (∑ wid ∈ Finset.range (L.activeWarpsT c), L.iterationsT c wid)
      = L.fullWarpsT c := by
  by_cases h : L.dev.warpsPerCore < L.fullWarpsT c
  · have hAW : L.activeWarpsT c = L.dev.warpsPerCore := by
      unfold Launch.activeWarpsT
      rw [if_pos h]
    have hWB : L.warpBatchesT c = L.fullWarpsT c / L.dev.warpsPerCore := by
      unfold Launch.warpBatchesT
      rw [if_pos h]
    have hRW : L.remainingWarpsT c = L.fullWarpsT c % L.dev.warpsPerCore := by
      unfold Launch.remainingWarpsT
      rw [if_pos h]
    simp only [Launch.iterationsT, hWB, hRW, hAW]
    rw [Finset.sum_add_distrib, Finset.sum_const, Finset.card_range,
      sum_range_ite_lt, smul_eq_mul]
    have hmod : L.fullWarpsT c % L.dev.warpsPerCore < L.dev.warpsPerCore :=
      Nat.mod_lt _ hwpc
    have hmin : min (L.fullWarpsT c % L.dev.warpsPerCore) L.dev.warpsPerCore
        = L.fullWarpsT c % L.dev.warpsPerCore := Nat.min_eq_left (le_of_lt hmod)
    rw [hmin]
    exact Nat.div_add_mod _ _
  · have hAW : L.activeWarpsT c = L.fullWarpsT c := by
      unfold Launch.activeWarpsT
      rw [if_neg h]
    have hWB : L.warpBatchesT c = 1 := by
      unfold Launch.warpBatchesT
      rw [if_neg h]
    have hRW : L.remainingWarpsT c = 0 := by
      unfold Launch.remainingWarpsT
      rw [if_neg h]
    simp only [Launch.iterationsT, hWB, hRW, hAW]
    have hite : ∀ wid : Nat, (1 + if wid < 0 then 1 else 0) = 1 := fun wid => by
      rw [if_neg (Nat.not_lt_zero wid)]
    rw [Finset.sum_congr rfl fun wid _ => hite wid, Finset.sum_const,
      Finset.card_range, smul_eq_mul, Nat.mul_one]

theorem length_taskFullInvs (L : Launch) (c : Nat) :
    (L.taskFullInvs c).length
      = ∑ wid ∈ Finset.range (L.activeWarpsT c),
          L.dev.threadsPerWarp * L.iterationsT c wid := by
  unfold Launch.taskFullInvs
  rw [length_flatMap_sum, sum_map_range]
  apply Finset.sum_congr rfl
  intro wid _
  rw [length_flatMap_sum, sum_map_range]
  simp only [List.length_map, List.length_range]
  rw [Finset.sum_const, Finset.card_range, smul_eq_mul]

theorem length_taskTailInvs (L : Launch) (c : Nat)
    (htpw : 0 < L.dev.threadsPerWarp) (htpw32 : L.dev.threadsPerWarp ≤ 32) :
    (L.taskTailInvs c).length = L.tailT c := by
  unfold Launch.taskTailInvs
  by_cases h : L.tailT c ≠ 0
  · rw [if_pos h, List.length_map]
    have htail : L.tailT c < L.dev.threadsPerWarp := Nat.mod_lt _ htpw
    have hmask : L.tailMask c = 2 ^ L.tailT c - 1 := by
      unfold Launch.tailMask
      have hsh : (1 : Nat) <<< L.tailT c = 2 ^ L.tailT c := by
        rw [Nat.shiftLeft_eq, Nat.one_mul]
      have hpow : 2 ^ L.tailT c < U := by
        have h31 : (2 : Nat) ^ L.tailT c ≤ 2 ^ 31 :=
          Nat.pow_le_pow_right (by norm_num) (by omega)
        have h32 : (2 : Nat) ^ 31 < U := by norm_num [U]
        omega
      rw [hsh, w32_eq hpow, wsub32_one Nat.one_le_two_pow hpow]
    have hfe : ((List.range L.dev.threadsPerWarp).filter
          fun t => (L.tailMask c).testBit t)
        = ((List.range L.dev.threadsPerWarp).filter
          fun t => decide (t < L.tailT c)) := by
      apply List.filter_congr
      intro t _
      rw [hmask, Nat.testBit_two_pow_sub_one]
    rw [hfe, length_filter_range_lt]
    omega
  · rw [if_neg h]
    simp only [ne_eq, Decidable.not_not] at h
    rw [h]
    rfl

theorem taskInvs_length (L : Launch) (c : Nat) (hWF : L.dev.WF) :
    (L.taskFullInvs c ++ L.taskTailInvs c).length = L.tasksPerCore c := by
  have htpw : 0 < L.dev.threadsPerWarp := hWF.2.2.2.1
  rw [List.length_append, length_taskFullInvs, ← Finset.mul_sum,
    sum_iterationsT L c hWF.2.2.1,
    length_taskTailInvs L c htpw hWF.2.2.2.2.1]
  unfold Launch.fullWarpsT Launch.tailT
  exact Nat.div_add_mod _ _

/-- On an active core the task path produces the full-warp invocations
followed by the tail invocations, one spawn of the active warps (when any)
and the final quiescence spawn. -/
theorem spawnCore_task (L : Launch) (c : Nat)
    (hval : L.groupSize ≤ L.threadsPerCore) (hgs : L.groupSize ≤ 1)
    (hc : c < L.activeCoresT) :
    L.spawnCore c =
      { ret := 0, invs := L.taskFullInvs c ++ L.taskTailInvs c,
        wspawns := (if 1 ≤ L.activeWarpsT c then [L.activeWarpsT c] else []) ++ [1],
        gridDimG := L.gDim, blockDimG := L.bDim, warpsPerGroupG := 0 } := by
  unfold Launch.spawnCore
  rw [if_neg (Nat.not_lt.mpr hval), if_neg (by omega : ¬ 1 < L.groupSize),
    if_neg (Nat.not_le.mpr hc)]

theorem spawnCore_task_inactive (L : Launch) (c : Nat)
    (hval : L.groupSize ≤ L.threadsPerCore) (hgs : L.groupSize ≤ 1)
    (hc : L.activeCoresT ≤ c) :
    L.spawnCore c =
      { ret := 0, invs := [], wspawns := [], gridDimG := L.gDim,
        blockDimG := L.bDim, warpsPerGroupG := 0 } := by
  unfold Launch.spawnCore
  rw [if_neg (Nat.not_lt.mpr hval), if_neg (by omega : ¬ 1 < L.groupSize),
    if_pos hc]

/-- In the task path with at least one active core, the device-wide number
of callback invocations is exactly `num_groups`. -/
theorem totalInvs_task (L : Launch) (hWF : L.dev.WF) (hgs : L.groupSize ≤ 1)
    (hact : 1 ≤ L.activeCoresT) : L.totalInvs = L.numGroups := by
  have htpc : 0 < L.threadsPerCore := threadsPerCore_pos L hWF
  have hval : L.groupSize ≤ L.threadsPerCore := le_trans hgs htpc
  have hAle : L.activeCoresT ≤ L.dev.numCores := Nat.min_le_right _ _
  unfold Launch.totalInvs Launch.allInvs
  rw [length_flatMap_sum, sum_map_range]
  have hz : ∀ x ∈ Finset.range L.dev.numCores, x ∉ Finset.range L.activeCoresT →
      (L.spawnCore x).invs.length = 0 := by
    intro x _ hnx
    have hxA : L.activeCoresT ≤ x :=
      Nat.not_lt.mp fun hlt => hnx (Finset.mem_range.mpr hlt)
    rw [spawnCore_task_inactive L x hval hgs hxA]
    rfl
  have hcg : ∀ c ∈ Finset.range L.activeCoresT,
      (L.spawnCore c).invs.length = L.perCore L.activeCoresT c := by
    intro c hcm
    rw [spawnCore_task L c hval hgs (Finset.mem_range.mp hcm)]
    exact taskInvs_length L c hWF
  rw [← Finset.sum_subset (Finset.range_subset.mpr hAle) hz,
    Finset.sum_congr rfl hcg]
  exact perCore_sum L _ hact


/-! ### Claim C9 -/

/-- C9 counterexample: with `num_groups = 2^32 - 1` tasks and a zero block
axis on a 2-lane device, `num_tasks + threads_per_core - 1` wraps in
`uint32_t`, the needed-cores division yields 0, and the launch performs
zero callback invocations rather than one per block. -/
theorem spawn_c9_counterexample :
    launchC9c.bDim.x = 0
  ∧ 0 < launchC9c.numGroups
  ∧ launchC9c.groupSize ≤ launchC9c.threadsPerCore
  ∧ launchC9c.activeCoresT = 0
  ∧ launchC9c.totalInvs = 0
  ∧ launchC9c.numGroups = 4294967295 := by
  decide

/-- C9 (amended): a launch with a zero `block_dim` axis (so `group_size =
0`) and `num_groups > 0` is not rejected; it takes the `group_size <= 1`
task path and, apart from the published `blockDim` global, behaves on every
core exactly as the same launch with `block_dim = (1,1,1)` would; provided
at least one core is active (which can fail only when `num_tasks +
threads_per_core - 1` wraps in `uint32_t`), the callback runs exactly
`num_groups` times across the device. -/
theorem spawn_c9_amended (L : Launch) (c : Nat) (hWF : L.dev.WF)
    (hz : L.bDim.x = 0 ∨ L.bDim.y = 0 ∨ L.bDim.z = 0)
    (hng : 0 < L.numGroups) (hact : 1 ≤ L.activeCoresT) :
    L.groupSize = 0
  ∧ (L.spawnCore c).ret = 0
  ∧ (L.spawnCore c).obs = (Launch.spawnCore { L with bDim := ⟨1, 1, 1⟩ } c).obs
  ∧ L.totalInvs = L.numGroups := by
  have htpc : 0 < L.threadsPerCore := threadsPerCore_pos L hWF
  have hgs0 : L.groupSize = 0 := by
    unfold Launch.groupSize
    rcases hz with h | h | h <;> rw [h] <;> simp [w32]
  have hval : L.groupSize ≤ L.threadsPerCore := by omega
  have hgs1 : Launch.groupSize { L with bDim := ⟨1, 1, 1⟩ } = 1 := by
    norm_num [Launch.groupSize, w32, U]
  have hval1 : Launch.groupSize { L with bDim := ⟨1, 1, 1⟩ }
      ≤ Launch.threadsPerCore { L with bDim := ⟨1, 1, 1⟩ } := by
    rw [hgs1]
    exact htpc
  refine ⟨hgs0, spawnCore_ret_ok L c hval, ?_, totalInvs_task L hWF (by omega) hact⟩
  by_cases hc : c < L.activeCoresT
  · rw [spawnCore_task L c hval (by omega) hc,
      spawnCore_task { L with bDim := ⟨1, 1, 1⟩ } c hval1 (by omega) hc]
    rfl
  · rw [spawnCore_task_inactive L c hval (by omega) (Nat.not_lt.mp hc),
      spawnCore_task_inactive { L with bDim := ⟨1, 1, 1⟩ } c hval1 (by omega)
        (Nat.not_lt.mp hc)]
    rfl

theorem spawn_c9_witness :
    launchC9w.bDim.x = 0 ∧ 0 < launchC9w.numGroups
  ∧ 1 ≤ launchC9w.activeCoresT
  ∧ launchC9w.groupSize = 0
  ∧ (launchC9w.spawnCore 0).ret = 0
  ∧ launchC9w.totalInvs = launchC9w.numGroups :=
  ⟨by decide, by decide, by decide,
   (spawn_c9_amended launchC9w 0 (by decide) (Or.inl (by decide)) (by decide)
     (by decide)).1,
   (spawn_c9_amended launchC9w 0 (by decide) (Or.inl (by decide)) (by decide)
     (by decide)).2.1,
   (spawn_c9_amended launchC9w 0 (by decide) (Or.inl (by decide)) (by decide)
     (by decide)).2.2.2⟩

/-! ### Claim C10 -/

/-- C10: `vx_spawn_threads` accepts any `dimension`: only axes `0`, `1`,
`2` are ever read and an axis defaults to 1 unless its index is below
`dimension`, so any `dimension >= 3` normalizes - and therefore behaves per
core - exactly as `dimension = 3`, and `dimension = 0` is a `1 * 1 * 1`
launch (`num_groups = group_size = 1`) that returns 0 and runs the
callback exactly once across the device. -/
theorem spawn_c10_dimension (cfg : Cfg) (d c : Nat) (hWF : cfg.dev.WF)
    (hd : 3 ≤ d) :
    ({ cfg with dimension := d } : Cfg).launch
      = ({ cfg with dimension := 3 } : Cfg).launch
  ∧ Cfg.spawnCore { cfg with dimension := d } c
      = Cfg.spawnCore { cfg with dimension := 3 } c
  ∧ ({ cfg with dimension := 0 } : Cfg).launch.numGroups = 1
  ∧ ({ cfg with dimension := 0 } : Cfg).launch.groupSize = 1
  ∧ (Cfg.spawnCore { cfg with dimension := 0 } c).ret = 0
  ∧ ({ cfg with dimension := 0 } : Cfg).launch.totalInvs = 1 := by
  have haxis : ∀ (p : Option (Nat → Nat)) (i : Nat), i < 3 →
      axisVal p d i = axisVal p 3 i := by
    intro p i hi
    cases p with
    | none => rfl
    | some a =>
        show (if i < d then w32 (a i) else 1) = (if i < 3 then w32 (a i) else 1)
        rw [if_pos (by omega), if_pos hi]
  have hlaunch : ({ cfg with dimension := d } : Cfg).launch
      = ({ cfg with dimension := 3 } : Cfg).launch := by
    unfold Cfg.launch
    rw [haxis cfg.gridPtr 0 (by norm_num), haxis cfg.gridPtr 1 (by norm_num),
      haxis cfg.gridPtr 2 (by norm_num), haxis cfg.blockPtr 0 (by norm_num),
      haxis cfg.blockPtr 1 (by norm_num), haxis cfg.blockPtr 2 (by norm_num)]
  have hax0 : ∀ (p : Option (Nat → Nat)) (i : Nat), axisVal p 0 i = 1 := by
    intro p i
    cases p with
    | none => rfl
    | some a =>
        show (if i < 0 then w32 (a i) else 1) = 1
        rw [if_neg (by omega)]
  have h0 : ({ cfg with dimension := 0 } : Cfg).launch =
      { gDim := ⟨1, 1, 1⟩, bDim := ⟨1, 1, 1⟩, dev := cfg.dev,
        gridDim0 := cfg.gridDim0, blockDim0 := cfg.blockDim0,
        warpsPerGroup0 := cfg.warpsPerGroup0, initBlockIdx := cfg.initBlockIdx,
        initThreadIdx := cfg.initThreadIdx } := by
    unfold Cfg.launch
    rw [hax0 cfg.gridPtr 0, hax0 cfg.gridPtr 1, hax0 cfg.gridPtr 2,
      hax0 cfg.blockPtr 0, hax0 cfg.blockPtr 1, hax0 cfg.blockPtr 2]
  have hng0 : ({ cfg with dimension := 0 } : Cfg).launch.numGroups = 1 := by
    rw [h0]
    rfl
  have hgs0 : ({ cfg with dimension := 0 } : Cfg).launch.groupSize = 1 := by
    rw [h0]
    rfl
  have hWF0 : ({ cfg with dimension := 0 } : Cfg).launch.dev.WF := by
    rw [h0]
    exact hWF
  have htpc0 : 0 < ({ cfg with dimension := 0 } : Cfg).launch.threadsPerCore :=
    threadsPerCore_pos _ hWF0
  have hact0 : 1 ≤ ({ cfg with dimension := 0 } : Cfg).launch.activeCoresT := by
    unfold Launch.activeCoresT
    rw [hng0, ceilU32_one htpc0 (w32_lt _)]
    have hnc : 1 ≤ ({ cfg with dimension := 0 } : Cfg).launch.dev.numCores := by
      rw [h0]
      exact hWF.1
    omega
  refine ⟨hlaunch, ?_, hng0, hgs0, ?_, ?_⟩
  · unfold Cfg.spawnCore
    rw [hlaunch]
  · exact spawnCore_ret_ok _ c (by rw [hgs0]; exact htpc0)
  · rw [totalInvs_task _ hWF0 (by rw [hgs0]) hact0]
    exact hng0

theorem spawn_c10_witness :
    cfgC10.dev.WF
  ∧ Cfg.spawnCore { cfgC10 with dimension := 5 } 0
      = Cfg.spawnCore { cfgC10 with dimension := 3 } 0
  ∧ ({ cfgC10 with dimension := 0 } : Cfg).launch.numGroups = 1
  ∧ (Cfg.spawnCore { cfgC10 with dimension := 0 } 0).ret = 0
  ∧ ({ cfgC10 with dimension := 0 } : Cfg).launch.totalInvs = 1 :=
  ⟨by decide,
   (spawn_c10_dimension cfgC10 5 0 (by decide) (by norm_num)).2.1,
   (spawn_c10_dimension cfgC10 5 0 (by decide) (by norm_num)).2.2.1,
   (spawn_c10_dimension cfgC10 5 0 (by decide) (by norm_num)).2.2.2.2.1,
   (spawn_c10_dimension cfgC10 5 0 (by decide) (by norm_num)).2.2.2.2.2⟩

end VxSpawn
